import Mathlib

/-
Verification of the MoBY training-step core (`models/moby.py`).

The embedding below translates the queue management, the cosine momentum
schedule and the contrastive-loss engine of the `MoBY` module into Lean.

Modelling conventions:
  * an embedding column is an element of an abstract type `α` for the pure
    queue-shuffling operations, and a `List ℝ` (a dense vector) for the loss
    engine, so dot products and cross-entropy are real-valued;
  * a queue matrix of shape `[dim × capacity]` is represented by its list of
    `capacity` columns; transposing a `[batch × dim]` key tensor turns its
    rows into columns, so enqueues splice the key rows directly as columns;
  * PyTorch slice assignment `queue[:, a:b] = K` succeeds only when the
    slice width equals the number of columns of `K`, otherwise it raises;
    fallible writes therefore return `Option` (or `Except` where the
    source also contains an `assert`);
  * Python floats are modelled by `ℝ`; `np.cos`, `exp`, `log` by the
    corresponding `Real` functions.
-/

namespace MoBY

/-- Configuration read by the training-step operations; mirrors the
constructor arguments `contrast_momentum`, `contrast_temperature`,
`contrast_num_negative` (global queue capacity), `contrast_num_positive`
(per-class queue capacity), `num_classes`, and the schedule length `K`
derived from dataset size, batch size and epochs. -/
structure Config where
  contrast_momentum : ℝ
  contrast_temperature : ℝ
  contrast_num_negative : Nat
  contrast_num_positive : Nat
  num_classes : Nat
  K : Nat

/-- Mutable state of a `MoBY` module: the parameter lists of the online and
momentum encoder/projector and of the predictor (flattened to lists of
reals), the two global negative queues with their shared write pointer, the
per-class queue pairs `cls_queue1_i` / `cls_queue2_i` with their pointers
`cls_queue_ptri` (stored index-addressably instead of through the source's
dynamically built attribute names), and the step counter `k`. -/
structure MoBYState (α : Type) where
  encoder : List ℝ
  encoder_k : List ℝ
  projector : List ℝ
  projector_k : List ℝ
  predictor : List ℝ
  queue1 : List α
  queue2 : List α
  queue_ptr : Nat
  cls_queue1 : List (List α)
  cls_queue2 : List (List α)
  cls_queue_ptr : List Nat
  k : Nat

/-- PyTorch slice assignment `q[:, ptr:ptr+len(ks)] = ks.T` on a queue given
by its columns: succeeds iff the slice width (clipped at the end of the
buffer) equals the number of assigned columns, i.e. `ptr + ks.length ≤
q.length`; on success the columns `[ptr, ptr+ks.length)` are replaced. -/
def sliceAssign {α : Type} (q : List α) (ptr : Nat) (ks : List α) : Option (List α) :=
  if ptr + ks.length ≤ q.length then
    some (q.take ptr ++ ks ++ q.drop (ptr + ks.length))
  else none

/-- PyTorch slice assignment to the end of the buffer, `q[:, ptr:] = ks.T`:
succeeds iff the width of the slice `[ptr, len q)` equals the number of
assigned columns. -/
def sliceAssignFrom {α : Type} (q : List α) (ptr : Nat) (ks : List α) : Option (List α) :=
  if ptr + ks.length = q.length then some (q.take ptr ++ ks) else none

/-- Boolean-mask row selection `keys[labels == i]`: the rows of `keys` whose
label equals `i`, in their original order. -/
def selectClass {α : Type} (keys : List α) (labels : List Nat) (i : Nat) : List α :=
  ((keys.zip labels).filter (fun p => p.2 == i)).map Prod.fst

/-- Failure modes of the global-queue enqueue `_dequeue_and_enqueue`:
`assertFailed` models the `assert self.contrast_num_negative % batch_size
== 0`, `zeroBatch` the `ZeroDivisionError` raised by `% 0` on an empty
batch, and `shapeMismatch` a slice-assignment width error. -/
inductive EnqueueError : Type where
  | assertFailed : EnqueueError
  | zeroBatch : EnqueueError
  | shapeMismatch : EnqueueError
deriving DecidableEq

/-- Lift a fallible slice assignment into the global enqueue's error monad. -/
def liftShape {β : Type} : Option β → Except EnqueueError β
  | some x => Except.ok x
  | none => Except.error EnqueueError.shapeMismatch

/-- The global-queue enqueue `_dequeue_and_enqueue(keys1, keys2)`: asserts
that the batch size divides `contrast_num_negative`, overwrites the columns
`[ptr, ptr+batch_size)` of `queue1` with `keys1.T` and of `queue2` with
`keys2.T`, and advances the shared pointer by `batch_size` modulo the
capacity.  The assert precedes every write, so on assertion failure no
queue column and no pointer is mutated. -/
def dequeue_and_enqueue {α : Type} (cfg : Config) (s : MoBYState α)
    (keys1 keys2 : List α) : Except EnqueueError (MoBYState α) :=
  let batch_size := keys1.length
  let ptr := s.queue_ptr
  if batch_size = 0 then Except.error EnqueueError.zeroBatch
  else if cfg.contrast_num_negative % batch_size = 0 then do
    let q1 ← liftShape (sliceAssign s.queue1 ptr keys1)
    let q2 ← liftShape (sliceAssign s.queue2 ptr keys2)
    Except.ok { s with
      queue1 := q1
      queue2 := q2
      queue_ptr := (ptr + batch_size) % cfg.contrast_num_negative }
  else Except.error EnqueueError.assertFailed

/-- One iteration of the loop body of `_dequeue_and_enqueue_label` for class
index `i`: select the class-`i` rows of both key batches; if there are
none, skip; otherwise write them at the class-`i` pointer of the class-`i`
queue pair, splitting into a head written at `[ptr, capacity)` and a tail
written at `[0, tail_size)` when the write would run past the end, and
advance the class-`i` pointer modulo the capacity.  The source writes the
second view's tail with slice width `len(tail_keys1)`; the two selected key
lists have equal length whenever the two incoming views do, which is the
only well-formed call shape, so the tail is written here with its own
width. -/
def enqueueClassStep {α : Type} (cfg : Config) (s : MoBYState α)
    (keys1 keys2 : List α) (labels : List Nat) (i : Nat) : Option (MoBYState α) :=
  let ks1 := selectClass keys1 labels i
  if ks1.length = 0 then some s else
  let ks2 := selectClass keys2 labels i
  let batch_size := ks1.length
  let this_ptr := s.cls_queue_ptr.getD i 0
  let q1 := s.cls_queue1.getD i []
  let q2 := s.cls_queue2.getD i []
  let cap := cfg.contrast_num_positive
  if this_ptr + batch_size ≤ cap then do
    let q1' ← sliceAssign q1 this_ptr ks1
    let q2' ← sliceAssign q2 this_ptr ks2
    some { s with
      cls_queue1 := s.cls_queue1.set i q1'
      cls_queue2 := s.cls_queue2.set i q2'
      cls_queue_ptr := s.cls_queue_ptr.set i ((this_ptr + batch_size) % cap) }
  else do
    let inx := cap - this_ptr
    let q1h ← sliceAssignFrom q1 this_ptr (ks1.take inx)
    let q1' ← sliceAssign q1h 0 (ks1.drop inx)
    let q2h ← sliceAssignFrom q2 this_ptr (ks2.take inx)
    let q2' ← sliceAssign q2h 0 (ks2.drop inx)
    some { s with
      cls_queue1 := s.cls_queue1.set i q1'
      cls_queue2 := s.cls_queue2.set i q2'
      cls_queue_ptr := s.cls_queue_ptr.set i ((this_ptr + batch_size) % cap) }

/-- The per-class enqueue `_dequeue_and_enqueue_label(keys1, keys2, labels)`:
iterate `enqueueClassStep` over every class index `0, …, num_classes - 1`
in ascending order. -/
def dequeue_and_enqueue_label {α : Type} (cfg : Config) (s : MoBYState α)
    (keys1 keys2 : List α) (labels : List Nat) : Option (MoBYState α) :=
  (List.range cfg.num_classes).foldlM
    (fun st i => enqueueClassStep cfg st keys1 keys2 labels i) s

/-- The cosine momentum coefficient computed at the top of
`_momentum_update_key_encoder`:
`1 - (1 - contrast_momentum) * (cos(pi * k / K) + 1) / 2`. -/
noncomputable def momentumCoefficient (m : ℝ) (k K : Nat) : ℝ :=
  1 - (1 - m) * (Real.cos (Real.pi * k / K) + 1) / 2

/-- The momentum update `_momentum_update_key_encoder`: compute the cosine
coefficient from the current step `k`, increment `k`, and update every
paired momentum parameter of the encoder and of the projector to
`param_k * coeff + param_q * (1 - coeff)`.  Pairs are formed positionally
(`zip`), exactly as in the source; every other field is untouched. -/
noncomputable def momentum_update_key_encoder {α : Type} (cfg : Config)
    (s : MoBYState α) : MoBYState α :=
  let c := momentumCoefficient cfg.contrast_momentum s.k cfg.K
  { s with
    k := s.k + 1
    encoder_k := (s.encoder.zip s.encoder_k).map (fun p => p.2 * c + p.1 * (1 - c))
    projector_k := (s.projector.zip s.projector_k).map (fun p => p.2 * c + p.1 * (1 - c)) }

/-- Row-wise dot product, `torch.einsum` with subscripts nc,nc->n applied to
a single row pair. -/
noncomputable def dot (x y : List ℝ) : ℝ :=
  ((x.zip y).map (fun p => p.1 * p.2)).sum

/-- Softmax of a row of logits. -/
noncomputable def softmax (z : List ℝ) : List ℝ :=
  z.map (fun x => Real.exp x / ((z.map Real.exp).sum))

/-- `F.cross_entropy(logits, zeros, reduction=mean)`: the mean over the rows
of the negative log of the softmax probability of index `0` (the label is
`0` for every row). -/
noncomputable def crossEntropyMeanZero (logits : List (List ℝ)) : ℝ :=
  ((logits.map (fun row => - Real.log ((softmax row).headI))).sum) / (logits.length : ℝ)

/-- The unlabeled pairwise loss `contrastive_loss(q, k, queue)`: positive
logits are the row-wise dot products of `q` and `k`, negative logits are
`q @ queue`, the two are concatenated along axis 1 with the positive at
column 0, divided by the temperature, and fed to cross-entropy against the
all-zero label vector with mean reduction. -/
noncomputable def contrastive_loss (T : ℝ) (q k queue : List (List ℝ)) : ℝ :=
  let l_pos := (q.zip k).map (fun p => dot p.1 p.2)
  let l_neg := q.map (fun qi => queue.map (fun col => dot qi col))
  let logits := (l_pos.zip l_neg).map (fun p => p.1 :: p.2)
  let logits := logits.map (fun row => row.map (fun x => x / T))
  crossEntropyMeanZero logits

/-- Whether the batch `targets` contains at least one sample of class `i`:
the guard `torch.sum(targets == i) == 0: continue` of both labeled-branch
loops. -/
def present (targets : List Nat) (i : Nat) : Bool :=
  targets.count i != 0

/-- The count `valid_class` accumulated by the first labeled-branch loop of
`forward`: the number of classes in `[0, num_classes)` with at least one
sample in the batch. -/
def valid_class (cfg : Config) (targets : List Nat) : Nat :=
  (List.range cfg.num_classes).foldl
    (fun acc i => if present targets i then acc + 1 else acc) 0

/-- The negative set assembled for class `i` in the labeled branch of
`forward`: the concatenation, over every other class index in ascending
order (`all_classes.remove(i)`), of the first `128` columns of that class's
second-view per-class queue `cls_queue2_j`. -/
def negFeatsFor (cfg : Config) (cls_queue2 : List (List (List ℝ))) (i : Nat) :
    List (List ℝ) :=
  (((List.range cfg.num_classes).erase i).map
    (fun j => (cls_queue2.getD j []).take 128)).flatten

/-- The accumulated class-conditional loss `la_ctr_loss` of the second
labeled-branch loop of `forward`, before division: for every class with at
least one sample, add `contrastive_loss` of that class's rows of `pred_1`
(queries), the same rows of `proj_2_ng` (positive keys, no queue lookup),
and the other-class negatives `negFeatsFor`. -/
noncomputable def la_ctr_loss_sum (cfg : Config) (s : MoBYState (List ℝ))
    (pred_1 proj_2_ng : List (List ℝ)) (targets : List Nat) : ℝ :=
  (List.range cfg.num_classes).foldl
    (fun acc i =>
      if present targets i then
        acc + contrastive_loss cfg.contrast_temperature
          (selectClass pred_1 targets i) (selectClass proj_2_ng targets i)
          (negFeatsFor cfg s.cls_queue2 i)
      else acc) 0

/-- The class-conditional loss returned by the labeled branch of `forward`:
the accumulated per-class losses divided by `valid_class`.  When no class
is present the accumulator is the integer `0` and the division
`la_ctr_loss / valid_class` raises `ZeroDivisionError`, modelled by
`none`; the source has no guard against this. -/
noncomputable def la_ctr_loss (cfg : Config) (s : MoBYState (List ℝ))
    (pred_1 proj_2_ng : List (List ℝ)) (targets : List Nat) : Option ℝ :=
  if valid_class cfg targets = 0 then none
  else some (la_ctr_loss_sum cfg s pred_1 proj_2_ng targets / (valid_class cfg targets : ℝ))

/-- The two loss values computed by the labeled branch (`targets` supplied)
of `forward`: the unsupervised cross-view loss `un_ctr_loss` read against
the global queues, and the class-conditional loss `la_ctr_loss`. -/
noncomputable def forward_labeled_losses (cfg : Config) (s : MoBYState (List ℝ))
    (pred_1 pred_2 proj_1_ng proj_2_ng : List (List ℝ)) (targets : List Nat) :
    ℝ × Option ℝ :=
  (contrastive_loss cfg.contrast_temperature pred_1 proj_2_ng s.queue2
     + contrastive_loss cfg.contrast_temperature pred_2 proj_1_ng s.queue1,
   la_ctr_loss cfg s pred_1 proj_2_ng targets)

/-- Indexing a positional zip. -/
lemma getElem?_zip_pair {β γ : Type} :
    ∀ (l1 : List β) (l2 : List γ) (j : Nat),
      (l1.zip l2)[j]? = (l1[j]?).bind (fun a => (l2[j]?).map (fun b => (a, b)))
  | [], l2, j => by cases l2 <;> cases j <;> simp
  | a :: t, [], j => by cases j <;> simp
  | a :: t, b :: u, 0 => by simp
  | a :: t, b :: u, j + 1 => by
      simpa using getElem?_zip_pair t u j

/-- C4.  The momentum coefficient follows the cosine schedule
`1 - (1 - m) * (cos(pi * k / K) + 1) / 2`: it equals the base momentum `m`
at `k = 0`, is non-decreasing in `k` on `[0, K]`, and equals `1` at
`k = K`. -/
theorem momentum_coefficient_schedule (m : ℝ) (K : Nat)
    (hm1 : m < 1) (hK : 0 < K) :
    (∀ k : Nat, momentumCoefficient m k K
        = 1 - (1 - m) * (Real.cos (Real.pi * k / K) + 1) / 2)
    ∧ momentumCoefficient m 0 K = m
    ∧ (∀ k1 k2 : Nat, k1 ≤ k2 → k2 ≤ K →
        momentumCoefficient m k1 K ≤ momentumCoefficient m k2 K)
    ∧ momentumCoefficient m K K = 1 := by
  have hKR : (0 : ℝ) < K := by exact_mod_cast hK
  refine ⟨fun k => rfl, ?_, ?_, ?_⟩
  · show 1 - (1 - m) * (Real.cos (Real.pi * (0 : Nat) / K) + 1) / 2 = m
    rw [Nat.cast_zero, mul_zero, zero_div, Real.cos_zero]
    ring
  · intro k1 k2 h12 h2K
    have hx0 : 0 ≤ Real.pi * k1 / K := by positivity
    have hx2 : Real.pi * (k2 : ℝ) / K ≤ Real.pi := by
      rw [mul_div_assoc]
      have h1 : ((k2 : ℝ) / K) ≤ 1 := by
        rw [div_le_one hKR]; exact_mod_cast h2K
      calc Real.pi * ((k2 : ℝ) / K) ≤ Real.pi * 1 :=
            mul_le_mul_of_nonneg_left h1 Real.pi_pos.le
        _ = Real.pi := mul_one _
    have h12R : (k1 : ℝ) ≤ k2 := by exact_mod_cast h12
    have hxy : Real.pi * (k1 : ℝ) / K ≤ Real.pi * k2 / K := by
      gcongr
    have hcos := Real.cos_le_cos_of_nonneg_of_le_pi hx0 hx2 hxy
    show 1 - (1 - m) * (Real.cos (Real.pi * k1 / K) + 1) / 2
        ≤ 1 - (1 - m) * (Real.cos (Real.pi * k2 / K) + 1) / 2
    have hmono := mul_le_mul_of_nonneg_left hcos (by linarith : (0 : ℝ) ≤ 1 - m)
    linarith
  · show 1 - (1 - m) * (Real.cos (Real.pi * (K : Nat) / K) + 1) / 2 = 1
    rw [show Real.pi * (K : ℝ) / K = Real.pi by
          rw [mul_div_assoc, div_self hKR.ne', mul_one],
        Real.cos_pi]
    ring

/-- Witness for `momentum_coefficient_schedule` at `m = 1/2`, `K = 2`. -/
theorem momentum_coefficient_schedule_witness :
    (1 / 2 : ℝ) < 1 ∧ 0 < 2
    ∧ ((∀ k : Nat, momentumCoefficient (1 / 2) k 2
          = 1 - (1 - 1 / 2) * (Real.cos (Real.pi * k / 2) + 1) / 2)
       ∧ momentumCoefficient (1 / 2) 0 2 = 1 / 2
       ∧ (∀ k1 k2 : Nat, k1 ≤ k2 → k2 ≤ 2 →
            momentumCoefficient (1 / 2) k1 2 ≤ momentumCoefficient (1 / 2) k2 2)
       ∧ momentumCoefficient (1 / 2) 2 2 = 1) :=
  ⟨by norm_num, by norm_num,
   momentum_coefficient_schedule (1 / 2) 2 (by norm_num) (by norm_num)⟩

/-- C6.  The momentum update increments the step counter `k` by exactly 1,
sets each positionally paired momentum parameter of the encoder and of the
projector to `momentum_param * coeff + online_param * (1 - coeff)`, and
leaves the online parameters, the predictor parameters, and all queue
matrices and pointers unchanged. -/
theorem momentum_update_effect {α : Type} (cfg : Config) (s : MoBYState α) :
    (momentum_update_key_encoder cfg s).k = s.k + 1
    ∧ (∀ (j : Nat) (pq pk : ℝ), s.encoder[j]? = some pq → s.encoder_k[j]? = some pk →
        (momentum_update_key_encoder cfg s).encoder_k[j]?
          = some (pk * momentumCoefficient cfg.contrast_momentum s.k cfg.K
              + pq * (1 - momentumCoefficient cfg.contrast_momentum s.k cfg.K)))
    ∧ (∀ (j : Nat) (pq pk : ℝ), s.projector[j]? = some pq → s.projector_k[j]? = some pk →
        (momentum_update_key_encoder cfg s).projector_k[j]?
          = some (pk * momentumCoefficient cfg.contrast_momentum s.k cfg.K
              + pq * (1 - momentumCoefficient cfg.contrast_momentum s.k cfg.K)))
    ∧ (momentum_update_key_encoder cfg s).encoder = s.encoder
    ∧ (momentum_update_key_encoder cfg s).projector = s.projector
    ∧ (momentum_update_key_encoder cfg s).predictor = s.predictor
    ∧ (momentum_update_key_encoder cfg s).queue1 = s.queue1
    ∧ (momentum_update_key_encoder cfg s).queue2 = s.queue2
    ∧ (momentum_update_key_encoder cfg s).queue_ptr = s.queue_ptr
    ∧ (momentum_update_key_encoder cfg s).cls_queue1 = s.cls_queue1
    ∧ (momentum_update_key_encoder cfg s).cls_queue2 = s.cls_queue2
    ∧ (momentum_update_key_encoder cfg s).cls_queue_ptr = s.cls_queue_ptr := by
  refine ⟨rfl, ?_, ?_, rfl, rfl, rfl, rfl, rfl, rfl, rfl, rfl, rfl⟩
  · intro j pq pk h1 h2
    show ((s.encoder.zip s.encoder_k).map _)[j]? = _
    rw [List.getElem?_map, getElem?_zip_pair, h1, h2]
    rfl
  · intro j pq pk h1 h2
    show ((s.projector.zip s.projector_k).map _)[j]? = _
    rw [List.getElem?_map, getElem?_zip_pair, h1, h2]
    rfl

/-- Witness for `momentum_update_effect` on a concrete one-parameter state,
reading the inner implications at index 0. -/
theorem momentum_update_effect_witness :
    (momentum_update_key_encoder ⟨(9 : ℝ) / 10, 1 / 5, 4, 4, 2, 10⟩
        (⟨[1], [2], [3], [4], [5], [], [], 0, [], [], [], 7⟩ : MoBYState Nat)).k = 7 + 1
    ∧ (momentum_update_key_encoder ⟨(9 : ℝ) / 10, 1 / 5, 4, 4, 2, 10⟩
        (⟨[1], [2], [3], [4], [5], [], [], 0, [], [], [], 7⟩ : MoBYState Nat)).encoder_k[0]?
        = some (2 * momentumCoefficient ((9 : ℝ) / 10) 7 10
            + 1 * (1 - momentumCoefficient ((9 : ℝ) / 10) 7 10)) :=
  ⟨(momentum_update_effect ⟨(9 : ℝ) / 10, 1 / 5, 4, 4, 2, 10⟩
      ⟨[1], [2], [3], [4], [5], [], [], 0, [], [], [], 7⟩).1,
   (momentum_update_effect ⟨(9 : ℝ) / 10, 1 / 5, 4, 4, 2, 10⟩
      ⟨[1], [2], [3], [4], [5], [], [], 0, [], [], [], 7⟩).2.1 0 1 2 rfl rfl⟩

/-- The sum of exponentials over a non-empty row of logits is positive. -/
lemma sum_exp_pos (z : ℝ) (zs : List ℝ) : 0 < ((z :: zs).map Real.exp).sum := by
  rw [List.map_cons, List.sum_cons]
  have h0 : 0 ≤ (zs.map Real.exp).sum :=
    List.sum_nonneg (by
      intro x hx
      rcases List.mem_map.mp hx with ⟨y, _, rfl⟩
      exact (Real.exp_pos y).le)
  have h1 := Real.exp_pos z
  linarith

/-- Cross-entropy of one row of logits against label 0, in log-sum-exp
form. -/
lemma ce_row (z : ℝ) (zs : List ℝ) :
    - Real.log ((softmax (z :: zs)).headI)
      = Real.log (((z :: zs).map Real.exp).sum) - z := by
  have hS := sum_exp_pos z zs
  unfold softmax
  simp only [List.map_cons, List.headI_cons]
  rw [← List.map_cons Real.exp z zs,
    Real.log_div (Real.exp_ne_zero z) hS.ne', Real.log_exp]
  ring

/-- Mean cross-entropy against label 0 over rows with an explicit head
column, in log-sum-exp form. -/
lemma crossEntropyMeanZero_cons (L : List (ℝ × List ℝ)) :
    crossEntropyMeanZero (L.map (fun p => p.1 :: p.2))
      = ((L.map (fun p =>
            Real.log (((p.1 :: p.2).map Real.exp).sum) - p.1)).sum) / (L.length : ℝ) := by
  unfold crossEntropyMeanZero
  have hfun : ((fun row => - Real.log ((softmax row).headI))
        ∘ (fun p : ℝ × List ℝ => p.1 :: p.2))
      = fun p : ℝ × List ℝ => Real.log (((p.1 :: p.2).map Real.exp).sum) - p.1 :=
    funext fun p => ce_row p.1 p.2
  rw [List.map_map, hfun, List.length_map]

/-- The per-row logits built inside `contrastive_loss` (positive column
consed onto the negative row, then divided by the temperature), fused into
a single map over the query/key pairs. -/
lemma contrastive_logits_fusion (T : ℝ) (queue : List (List ℝ)) :
    ∀ (q k : List (List ℝ)),
      ((((q.zip k).map (fun p => dot p.1 p.2)).zip
          (q.map (fun qi => queue.map (fun col => dot qi col)))).map
        (fun p => p.1 :: p.2)).map (fun row => row.map (fun x => x / T))
      = (q.zip k).map (fun p =>
          (dot p.1 p.2 / T) :: queue.map (fun c => dot p.1 c / T))
  | [], k => by simp
  | a :: q', [] => by simp
  | a :: q', b :: k' => by
      simp only [List.zip_cons_cons, List.map_cons]
      rw [contrastive_logits_fusion T queue q' k']
      simp [List.map_map, Function.comp]

/-- C5.  The unlabeled pairwise loss equals cross-entropy with mean
reduction over the logits obtained by concatenating the row-wise dot
product of `q` and `k` with `q @ queue` along axis 1 and dividing by the
temperature, the target label being 0 (the positive column) for every row;
equivalently, it is the mean over rows of
`log(sum of exponentials of the row) - positive logit`. -/
theorem contrastive_loss_spec (T : ℝ) (q k queue : List (List ℝ))
    (hlen : q.length = k.length) :
    contrastive_loss T q k queue
        = crossEntropyMeanZero ((q.zip k).map (fun p =>
            (dot p.1 p.2 / T) :: queue.map (fun c => dot p.1 c / T)))
    ∧ contrastive_loss T q k queue
        = (((q.zip k).map (fun p =>
              Real.log ((((dot p.1 p.2 / T) :: queue.map (fun c => dot p.1 c / T)).map
                Real.exp).sum) - dot p.1 p.2 / T)).sum) / (q.length : ℝ) := by
  have hfuse := contrastive_logits_fusion T queue q k
  have h1 : contrastive_loss T q k queue
      = crossEntropyMeanZero ((q.zip k).map (fun p =>
          (dot p.1 p.2 / T) :: queue.map (fun c => dot p.1 c / T))) := by
    simp only [contrastive_loss]
    rw [hfuse]
  refine ⟨h1, ?_⟩
  have hshape : ((q.zip k).map (fun p =>
        (dot p.1 p.2 / T) :: queue.map (fun c => dot p.1 c / T)))
      = ((q.zip k).map (fun p =>
          (dot p.1 p.2 / T, queue.map (fun c => dot p.1 c / T)))).map
            (fun r => r.1 :: r.2) := by
    rw [List.map_map]
    rfl
  rw [h1, hshape, crossEntropyMeanZero_cons, List.map_map, List.length_map,
    List.length_zip, hlen, Nat.min_self]
  rfl

/-- Witness for `contrastive_loss_spec` on a one-row batch. -/
theorem contrastive_loss_spec_witness :
    ([[(1 : ℝ)]].length = [[(2 : ℝ)]].length)
    ∧ (contrastive_loss 2 [[(1 : ℝ)]] [[(2 : ℝ)]] [[(3 : ℝ)]]
        = crossEntropyMeanZero (([[(1 : ℝ)]].zip [[(2 : ℝ)]]).map (fun p =>
            (dot p.1 p.2 / 2) :: [[(3 : ℝ)]].map (fun c => dot p.1 c / 2)))
       ∧ contrastive_loss 2 [[(1 : ℝ)]] [[(2 : ℝ)]] [[(3 : ℝ)]]
          = ((([[(1 : ℝ)]].zip [[(2 : ℝ)]]).map (fun p =>
              Real.log ((((dot p.1 p.2 / 2) :: [[(3 : ℝ)]].map (fun c => dot p.1 c / 2)).map
                Real.exp).sum) - dot p.1 p.2 / 2)).sum) / ([[(1 : ℝ)]].length : ℝ)) :=
  ⟨rfl, contrastive_loss_spec 2 [[(1 : ℝ)]] [[(2 : ℝ)]] [[(3 : ℝ)]] rfl⟩

/-- C9.  A global-queue enqueue on a non-empty batch fails its assertion
(the abort happening before any queue or pointer mutation) exactly when
the batch size does not evenly divide the queue capacity. -/
theorem global_enqueue_assert_iff {α : Type} (cfg : Config) (s : MoBYState α)
    (keys1 keys2 : List α) (hbs : 0 < keys1.length) :
    dequeue_and_enqueue cfg s keys1 keys2 = Except.error EnqueueError.assertFailed
      ↔ cfg.contrast_num_negative % keys1.length ≠ 0 := by
  unfold dequeue_and_enqueue
  rw [if_neg hbs.ne']
  by_cases h : cfg.contrast_num_negative % keys1.length = 0
  · rw [if_pos h]
    simp only [h, ne_eq, not_true_eq_false, iff_false]
    cases h1 : sliceAssign s.queue1 s.queue_ptr keys1 <;>
      cases h2 : sliceAssign s.queue2 s.queue_ptr keys2 <;>
        simp [liftShape, h1, h2, Bind.bind, Except.bind]
  · rw [if_neg h]
    simp [h]

/-- Witness for `global_enqueue_assert_iff`: capacity 5 is not divisible by
batch size 2, and the enqueue indeed reports the assertion failure. -/
theorem global_enqueue_assert_iff_witness :
    0 < ([10, 11] : List Nat).length
    ∧ (dequeue_and_enqueue ⟨(0 : ℝ), 0, 5, 4, 1, 1⟩
        (⟨[], [], [], [], [], [0, 1, 2, 3, 4], [5, 6, 7, 8, 9], 0, [], [], [], 0⟩ : MoBYState Nat)
        [10, 11] [12, 13] = Except.error EnqueueError.assertFailed
       ↔ (⟨(0 : ℝ), 0, 5, 4, 1, 1⟩ : Config).contrast_num_negative % ([10, 11] : List Nat).length ≠ 0) :=
  ⟨by decide,
   global_enqueue_assert_iff ⟨(0 : ℝ), 0, 5, 4, 1, 1⟩
     ⟨[], [], [], [], [], [0, 1, 2, 3, 4], [5, 6, 7, 8, 9], 0, [], [], [], 0⟩
     [10, 11] [12, 13] (by decide)⟩

/-- C3 counterexample.  With capacity 4 evenly divisible by batch size 2 and
pointer 3 in `[0, 4)`, the slice `queue[:, 3:5]` has width 1 and the
two-column assignment raises, so the enqueue does not overwrite columns
`[3, 5)` and does not advance the pointer, contradicting the claim as
stated for arbitrary pointers in `[0, capacity)`. -/
theorem global_enqueue_ptr_overflow_cex :
    dequeue_and_enqueue ⟨(0 : ℝ), 0, 4, 4, 1, 1⟩
      (⟨[], [], [], [], [], [0, 1, 2, 3], [4, 5, 6, 7], 3, [], [], [], 0⟩ : MoBYState Nat)
      [10, 11] [12, 13] = Except.error EnqueueError.shapeMismatch := rfl

/-- C3 (amended).  When additionally the write fits before the end of the
buffer (`ptr + batch_size ≤ capacity`, which holds for every pointer the
enqueue itself can produce, since such pointers are multiples of the batch
size), the global enqueue overwrites exactly the columns
`[ptr, ptr + batch_size)` of both view matrices with the transposed key
batches, leaves every other column unchanged, and sets the shared pointer
to `(ptr + batch_size) % capacity`. -/
theorem global_enqueue_spec {α : Type} (cfg : Config) (s : MoBYState α)
    (keys1 keys2 : List α)
    (hq1 : s.queue1.length = cfg.contrast_num_negative)
    (hq2 : s.queue2.length = cfg.contrast_num_negative)
    (hk : keys2.length = keys1.length)
    (hbs : 0 < keys1.length)
    (hdvd : cfg.contrast_num_negative % keys1.length = 0)
    (hfit : s.queue_ptr + keys1.length ≤ cfg.contrast_num_negative) :
    dequeue_and_enqueue cfg s keys1 keys2 = Except.ok { s with
      queue1 := s.queue1.take s.queue_ptr ++ keys1
        ++ s.queue1.drop (s.queue_ptr + keys1.length)
      queue2 := s.queue2.take s.queue_ptr ++ keys2
        ++ s.queue2.drop (s.queue_ptr + keys2.length)
      queue_ptr := (s.queue_ptr + keys1.length) % cfg.contrast_num_negative } := by
  unfold dequeue_and_enqueue
  rw [if_neg hbs.ne', if_pos hdvd]
  have h1 : sliceAssign s.queue1 s.queue_ptr keys1
      = some (s.queue1.take s.queue_ptr ++ keys1
          ++ s.queue1.drop (s.queue_ptr + keys1.length)) := by
    unfold sliceAssign
    rw [if_pos (by omega)]
  have h2 : sliceAssign s.queue2 s.queue_ptr keys2
      = some (s.queue2.take s.queue_ptr ++ keys2
          ++ s.queue2.drop (s.queue_ptr + keys2.length)) := by
    unfold sliceAssign
    rw [if_pos (by omega)]
  rw [h1, h2]
  rfl

/-- Witness for `global_enqueue_spec`: capacity 4, batch size 2, pointer 2. -/
theorem global_enqueue_spec_witness :
    (([0, 1, 2, 3] : List Nat).length = 4 ∧ ([4, 5, 6, 7] : List Nat).length = 4
      ∧ ([12, 13] : List Nat).length = ([10, 11] : List Nat).length
      ∧ 0 < ([10, 11] : List Nat).length ∧ 4 % ([10, 11] : List Nat).length = 0
      ∧ 2 + ([10, 11] : List Nat).length ≤ 4)
    ∧ dequeue_and_enqueue ⟨(0 : ℝ), 0, 4, 4, 1, 1⟩
        (⟨[], [], [], [], [], [0, 1, 2, 3], [4, 5, 6, 7], 2, [], [], [], 0⟩ : MoBYState Nat)
        [10, 11] [12, 13]
      = Except.ok { (⟨[], [], [], [], [], [0, 1, 2, 3], [4, 5, 6, 7], 2, [], [], [], 0⟩ : MoBYState Nat) with
          queue1 := ([0, 1, 2, 3] : List Nat).take 2 ++ [10, 11]
            ++ ([0, 1, 2, 3] : List Nat).drop (2 + ([10, 11] : List Nat).length)
          queue2 := ([4, 5, 6, 7] : List Nat).take 2 ++ [12, 13]
            ++ ([4, 5, 6, 7] : List Nat).drop (2 + ([12, 13] : List Nat).length)
          queue_ptr := (2 + ([10, 11] : List Nat).length) % 4 } :=
  ⟨⟨by decide, by decide, by decide, by decide, by decide, by decide⟩,
   global_enqueue_spec ⟨(0 : ℝ), 0, 4, 4, 1, 1⟩
     ⟨[], [], [], [], [], [0, 1, 2, 3], [4, 5, 6, 7], 2, [], [], [], 0⟩
     [10, 11] [12, 13] (by decide) (by decide) (by decide) (by decide) (by decide) (by decide)⟩

/-- A guarded accumulating fold over `List.range` is a guarded sum. -/
lemma foldl_range_ite {M : Type} [AddCommMonoid M] (p : Nat → Bool) (f : Nat → M) :
    ∀ n : Nat, (List.range n).foldl (fun acc i => if p i then acc + f i else acc) 0
      = ∑ i ∈ Finset.range n, if p i then f i else 0
  | 0 => by simp
  | n + 1 => by
      rw [List.range_succ, List.foldl_append, foldl_range_ite p f n,
        Finset.sum_range_succ]
      by_cases h : p n <;> simp [h]

/-- The loop counter `valid_class` counts the classes present in the
batch. -/
lemma valid_class_eq_card (cfg : Config) (targets : List Nat) :
    valid_class cfg targets
      = ((Finset.range cfg.num_classes).filter (fun i => present targets i)).card := by
  unfold valid_class
  rw [foldl_range_ite (present targets) (fun _ => 1) cfg.num_classes,
    Finset.card_filter]

/-- The accumulated class-conditional loss is the sum over the classes
present in the batch. -/
lemma la_ctr_loss_sum_eq (cfg : Config) (s : MoBYState (List ℝ))
    (pred_1 proj_2_ng : List (List ℝ)) (targets : List Nat) :
    la_ctr_loss_sum cfg s pred_1 proj_2_ng targets
      = ∑ i ∈ (Finset.range cfg.num_classes).filter (fun i => present targets i),
          contrastive_loss cfg.contrast_temperature
            (selectClass pred_1 targets i) (selectClass proj_2_ng targets i)
            (negFeatsFor cfg s.cls_queue2 i) := by
  unfold la_ctr_loss_sum
  rw [foldl_range_ite (present targets)
    (fun i => contrastive_loss cfg.contrast_temperature
      (selectClass pred_1 targets i) (selectClass proj_2_ng targets i)
      (negFeatsFor cfg s.cls_queue2 i)) cfg.num_classes,
    Finset.sum_filter]

/-- `all_classes.remove(i)` on `list(range(num_classes))` keeps every other
class index in ascending order. -/
lemma range_erase_eq_filter (n i : Nat) :
    (List.range n).erase i = (List.range n).filter (fun j => j != i) :=
  (List.nodup_range n).erase_eq_filter i

/-- The negative set of class `i` written with an explicit filter over the
other classes. -/
lemma negFeatsFor_eq_filter (cfg : Config) (cls_queue2 : List (List (List ℝ))) (i : Nat) :
    negFeatsFor cfg cls_queue2 i
      = (((List.range cfg.num_classes).filter (fun j => j != i)).map
          (fun j => (cls_queue2.getD j []).take 128)).flatten := by
  unfold negFeatsFor
  rw [range_erase_eq_filter]

/-- C2.  The class-conditional loss is computed only over the classes
present in the batch: each present class contributes the pairwise loss of
its rows of `pred_1` against the same rows of `proj_2_ng` (no queue
lookup), with negatives the concatenation of the first 128 columns of
every other class's second-view per-class queue in ascending class order,
and the total is divided by the number of present classes, so an absent
class contributes nothing and does not count in the divisor. -/
theorem labeled_class_loss_spec (cfg : Config) (s : MoBYState (List ℝ))
    (pred_1 proj_2_ng : List (List ℝ)) (targets : List Nat)
    (hpresent : valid_class cfg targets ≠ 0) :
    la_ctr_loss cfg s pred_1 proj_2_ng targets
      = some ((∑ i ∈ (Finset.range cfg.num_classes).filter (fun i => present targets i),
            contrastive_loss cfg.contrast_temperature
              (selectClass pred_1 targets i) (selectClass proj_2_ng targets i)
              ((((List.range cfg.num_classes).filter (fun j => j != i)).map
                  (fun j => (s.cls_queue2.getD j []).take 128)).flatten))
          / (((Finset.range cfg.num_classes).filter (fun i => present targets i)).card : ℝ)) := by
  unfold la_ctr_loss
  rw [if_neg hpresent, la_ctr_loss_sum_eq, valid_class_eq_card]
  congr 1
  refine congrArg₂ _ (Finset.sum_congr rfl fun i _ => ?_) rfl
  rw [negFeatsFor_eq_filter]

/-- Witness for `labeled_class_loss_spec` with two classes both present. -/
theorem labeled_class_loss_spec_witness :
    valid_class ⟨(9 : ℝ) / 10, 1 / 5, 4, 4, 2, 1⟩ [0, 1] ≠ 0
    ∧ la_ctr_loss ⟨(9 : ℝ) / 10, 1 / 5, 4, 4, 2, 1⟩
        (⟨[], [], [], [], [], [], [], 0, [[[5]], [[6]]], [[[7]], [[8]]], [0, 0], 0⟩ :
          MoBYState (List ℝ))
        [[(1 : ℝ)], [2]] [[(3 : ℝ)], [4]] [0, 1]
      = some ((∑ i ∈ (Finset.range 2).filter (fun i => present [0, 1] i),
            contrastive_loss ((1 : ℝ) / 5)
              (selectClass [[(1 : ℝ)], [2]] [0, 1] i)
              (selectClass [[(3 : ℝ)], [4]] [0, 1] i)
              ((((List.range 2).filter (fun j => j != i)).map
                  (fun j => (([[[(7 : ℝ)]], [[8]]] : List (List (List ℝ))).getD j []).take 128)).flatten))
          / (((Finset.range 2).filter (fun i => present [0, 1] i)).card : ℝ)) :=
  ⟨by decide,
   labeled_class_loss_spec ⟨(9 : ℝ) / 10, 1 / 5, 4, 4, 2, 1⟩
     ⟨[], [], [], [], [], [], [], 0, [[[5]], [[6]]], [[[7]], [[8]]], [0, 0], 0⟩
     [[(1 : ℝ)], [2]] [[(3 : ℝ)], [4]] [0, 1] (by decide)⟩

/-- C8.  When the batch contains no sample of any class in
`[0, num_classes)`, the count of present classes is zero and the
class-conditional loss step fails with a division-by-zero (no guard in the
source prevents it), modelled by `none`. -/
theorem labeled_loss_all_empty (cfg : Config) (s : MoBYState (List ℝ))
    (pred_1 proj_2_ng : List (List ℝ)) (targets : List Nat)
    (h : ∀ i < cfg.num_classes, targets.count i = 0) :
    valid_class cfg targets = 0
    ∧ la_ctr_loss cfg s pred_1 proj_2_ng targets = none := by
  have hv : valid_class cfg targets = 0 := by
    unfold valid_class
    rw [foldl_range_ite (present targets) (fun _ => 1) cfg.num_classes]
    refine Finset.sum_eq_zero fun i hi => ?_
    have hc := h i (Finset.mem_range.mp hi)
    simp [present, hc]
  exact ⟨hv, by unfold la_ctr_loss; rw [if_pos hv]⟩

/-- Witness for `labeled_loss_all_empty` on an empty batch. -/
theorem labeled_loss_all_empty_witness :
    (∀ i < (⟨(9 : ℝ) / 10, 1 / 5, 4, 4, 2, 1⟩ : Config).num_classes,
      ([] : List Nat).count i = 0)
    ∧ (valid_class ⟨(9 : ℝ) / 10, 1 / 5, 4, 4, 2, 1⟩ [] = 0
       ∧ la_ctr_loss ⟨(9 : ℝ) / 10, 1 / 5, 4, 4, 2, 1⟩
          (⟨[], [], [], [], [], [], [], 0, [], [], [], 0⟩ : MoBYState (List ℝ))
          [] [] [] = none) :=
  ⟨fun i _ => List.count_nil i,
   labeled_loss_all_empty ⟨(9 : ℝ) / 10, 1 / 5, 4, 4, 2, 1⟩
     ⟨[], [], [], [], [], [], [], 0, [], [], [], 0⟩ [] [] []
     (fun i _ => List.count_nil i)⟩

/-- The class-`i` selection picks as many rows as the label `i` occurs in
the batch. -/
lemma selectClass_length_count {α : Type} :
    ∀ (labels : List Nat) (keys : List α), keys.length = labels.length →
      ∀ i, (selectClass keys labels i).length = labels.count i
  | [], keys, h, i => by
      have hk : keys = [] := List.length_eq_zero.mp h
      subst hk
      simp [selectClass]
  | l :: ls, [], h, i => by simp at h
  | l :: ls, a :: as, h, i => by
      have h' : as.length = ls.length := by simpa using h
      have ih := selectClass_length_count ls as h' i
      simp only [selectClass, List.zip_cons_cons, List.filter_cons] at *
      by_cases hl : l = i
      · subst hl
        simp [List.count_cons, ih]
      · simp [List.count_cons, hl, Ne.symm hl, ih]

/-- Summing the label counts over all classes recovers the batch size. -/
lemma sum_count_range :
    ∀ (labels : List Nat) (n : Nat), (∀ l ∈ labels, l < n) →
      (∑ i ∈ Finset.range n, labels.count i) = labels.length
  | [], n, _ => by simp
  | a :: t, n, h => by
      have ha : a < n := h a (by simp)
      have ih := sum_count_range t n fun l hl => h l (List.mem_cons_of_mem a hl)
      have hcons : ∀ i : Nat, (a :: t).count i = t.count i + if a = i then 1 else 0 := by
        intro i
        rw [List.count_cons]
        simp [beq_iff_eq]
      calc (∑ i ∈ Finset.range n, (a :: t).count i)
          = ∑ i ∈ Finset.range n, (t.count i + if a = i then 1 else 0) :=
            Finset.sum_congr rfl fun i _ => hcons i
        _ = (∑ i ∈ Finset.range n, t.count i)
            + ∑ i ∈ Finset.range n, (if a = i then 1 else 0) := Finset.sum_add_distrib
        _ = t.length + 1 := by
            rw [ih, Finset.sum_ite_eq (Finset.range n) a (fun _ => 1)]
            simp [Finset.mem_range.mpr ha]
        _ = (a :: t).length := by simp

/-- C7.  One per-class enqueue writes each sample of the batch into exactly
one class's queue pair: summed over all classes, the numbers of rows
selected (and hence written) in one `_dequeue_and_enqueue_label` call add
up to the batch size. -/
theorem per_class_write_total {α : Type} (cfg : Config) (keys1 : List α)
    (labels : List Nat) (hlen : keys1.length = labels.length)
    (hrange : ∀ l ∈ labels, l < cfg.num_classes) :
    (∑ i ∈ Finset.range cfg.num_classes, (selectClass keys1 labels i).length)
      = keys1.length := by
  calc (∑ i ∈ Finset.range cfg.num_classes, (selectClass keys1 labels i).length)
      = ∑ i ∈ Finset.range cfg.num_classes, labels.count i :=
        Finset.sum_congr rfl fun i _ => selectClass_length_count labels keys1 hlen i
    _ = labels.length := sum_count_range labels cfg.num_classes hrange
    _ = keys1.length := hlen.symm

/-- Witness for `per_class_write_total`: labels `[0, 1, 0]` over two
classes account for all three samples. -/
theorem per_class_write_total_witness :
    (([10, 20, 30] : List Nat).length = ([0, 1, 0] : List Nat).length
      ∧ (∀ l ∈ ([0, 1, 0] : List Nat), l < (⟨(0 : ℝ), 0, 4, 4, 2, 1⟩ : Config).num_classes))
    ∧ (∑ i ∈ Finset.range (⟨(0 : ℝ), 0, 4, 4, 2, 1⟩ : Config).num_classes,
        (selectClass ([10, 20, 30] : List Nat) [0, 1, 0] i).length)
      = ([10, 20, 30] : List Nat).length :=
  ⟨⟨by decide, by decide⟩,
   per_class_write_total ⟨(0 : ℝ), 0, 4, 4, 2, 1⟩ [10, 20, 30] [0, 1, 0]
     (by decide) (by decide)⟩

/-- C10.  The two losses returned by the labeled branch of `forward` never
read the first-view per-class queues: two states that differ only in
`cls_queue1` yield identical loss values. -/
theorem labeled_losses_ignore_cls_queue1 (cfg : Config) (s : MoBYState (List ℝ))
    (Q : List (List (List ℝ))) (pred_1 pred_2 proj_1_ng proj_2_ng : List (List ℝ))
    (targets : List Nat) :
    forward_labeled_losses cfg { s with cls_queue1 := Q }
        pred_1 pred_2 proj_1_ng proj_2_ng targets
      = forward_labeled_losses cfg s pred_1 pred_2 proj_1_ng proj_2_ng targets := rfl

/-- Writing a list cell and reading it back. -/
lemma getD_set_self {β : Type} :
    ∀ (l : List β) (i : Nat) (x d : β), i < l.length → (l.set i x).getD i d = x
  | [], i, _, _, h => absurd h (by simp)
  | _ :: _, 0, _, _, _ => rfl
  | _ :: t, i + 1, x, d, h => by
      simpa using getD_set_self t i x d (by simpa using h)

/-- Writing one list cell leaves every other cell unchanged. -/
lemma getD_set_ne {β : Type} :
    ∀ (l : List β) (i j : Nat) (x d : β), j ≠ i → (l.set j x).getD i d = l.getD i d
  | [], _, _, _, _, _ => rfl
  | _ :: _, i, 0, x, d, h => by
      cases i with
      | zero => exact absurd rfl h
      | succ i => rfl
  | a :: t, i, j + 1, x, d, h => by
      cases i with
      | zero => rfl
      | succ i => simpa using getD_set_ne t i j x d (by omega)

/-- A per-class step for class `j` does not touch the queue pair, the
pointer, or the bookkeeping lengths of any other class `i`. -/
lemma enqueueClassStep_ne {α : Type} (cfg : Config) (st st' : MoBYState α)
    (keys1 keys2 : List α) (labels : List Nat) (i j : Nat) (hne : j ≠ i)
    (h : enqueueClassStep cfg st keys1 keys2 labels j = some st') :
    st'.cls_queue1.getD i [] = st.cls_queue1.getD i []
    ∧ st'.cls_queue2.getD i [] = st.cls_queue2.getD i []
    ∧ st'.cls_queue_ptr.getD i 0 = st.cls_queue_ptr.getD i 0
    ∧ st'.cls_queue1.length = st.cls_queue1.length
    ∧ st'.cls_queue2.length = st.cls_queue2.length
    ∧ st'.cls_queue_ptr.length = st.cls_queue_ptr.length := by
  simp only [enqueueClassStep] at h
  by_cases h0 : (selectClass keys1 labels j).length = 0
  · rw [if_pos h0] at h
    cases h
    exact ⟨rfl, rfl, rfl, rfl, rfl, rfl⟩
  · rw [if_neg h0] at h
    by_cases hc : st.cls_queue_ptr.getD j 0 + (selectClass keys1 labels j).length
        ≤ cfg.contrast_num_positive
    · rw [if_pos hc] at h
      cases h1 : sliceAssign (st.cls_queue1.getD j []) (st.cls_queue_ptr.getD j 0)
          (selectClass keys1 labels j) <;> rw [h1] at h <;> simp only [Option.bind_eq_bind, Option.none_bind,
        Option.some_bind, reduceCtorEq] at h
      cases h2 : sliceAssign (st.cls_queue2.getD j []) (st.cls_queue_ptr.getD j 0)
          (selectClass keys2 labels j) <;> rw [h2] at h <;> simp only [Option.bind_eq_bind, Option.none_bind,
        Option.some_bind, reduceCtorEq] at h
      cases h
      exact ⟨getD_set_ne _ _ _ _ _ hne, getD_set_ne _ _ _ _ _ hne,
        getD_set_ne _ _ _ _ _ hne, List.length_set .., List.length_set .., List.length_set ..⟩
    · rw [if_neg hc] at h
      cases h1 : sliceAssignFrom (st.cls_queue1.getD j []) (st.cls_queue_ptr.getD j 0)
          ((selectClass keys1 labels j).take
            (cfg.contrast_num_positive - st.cls_queue_ptr.getD j 0)) <;> rw [h1] at h <;>
        simp only [Option.bind_eq_bind, Option.none_bind, Option.some_bind, reduceCtorEq] at h
      rename_i q1h
      cases h2 : sliceAssign q1h 0 ((selectClass keys1 labels j).drop
          (cfg.contrast_num_positive - st.cls_queue_ptr.getD j 0)) <;> rw [h2] at h <;>
        simp only [Option.bind_eq_bind, Option.none_bind, Option.some_bind, reduceCtorEq] at h
      cases h3 : sliceAssignFrom (st.cls_queue2.getD j []) (st.cls_queue_ptr.getD j 0)
          ((selectClass keys2 labels j).take
            (cfg.contrast_num_positive - st.cls_queue_ptr.getD j 0)) <;> rw [h3] at h <;>
        simp only [Option.bind_eq_bind, Option.none_bind, Option.some_bind, reduceCtorEq] at h
      rename_i q2h
      cases h4 : sliceAssign q2h 0 ((selectClass keys2 labels j).drop
          (cfg.contrast_num_positive - st.cls_queue_ptr.getD j 0)) <;> rw [h4] at h <;>
        simp only [Option.bind_eq_bind, Option.none_bind, Option.some_bind, reduceCtorEq] at h
      cases h
      exact ⟨getD_set_ne _ _ _ _ _ hne, getD_set_ne _ _ _ _ _ hne,
        getD_set_ne _ _ _ _ _ hne, List.length_set .., List.length_set .., List.length_set ..⟩

/-- Folding per-class steps over class indices all different from `i`
leaves class `i`'s data untouched. -/
lemma foldlM_steps_preserve {α : Type} (cfg : Config) (keys1 keys2 : List α)
    (labels : List Nat) (i : Nat) :
    ∀ (L : List Nat) (st st' : MoBYState α), (∀ j ∈ L, j ≠ i) →
      List.foldlM (fun t j => enqueueClassStep cfg t keys1 keys2 labels j) st L
        = some st' →
      st'.cls_queue1.getD i [] = st.cls_queue1.getD i []
      ∧ st'.cls_queue2.getD i [] = st.cls_queue2.getD i []
      ∧ st'.cls_queue_ptr.getD i 0 = st.cls_queue_ptr.getD i 0
      ∧ st'.cls_queue1.length = st.cls_queue1.length
      ∧ st'.cls_queue2.length = st.cls_queue2.length
      ∧ st'.cls_queue_ptr.length = st.cls_queue_ptr.length
  | [], st, st', _, h => by
      cases h
      exact ⟨rfl, rfl, rfl, rfl, rfl, rfl⟩
  | j :: L, st, st', hmem, h => by
      rw [List.foldlM_cons] at h
      cases hq : enqueueClassStep cfg st keys1 keys2 labels j <;> rw [hq] at h <;>
        simp only [Option.bind_eq_bind, Option.none_bind, Option.some_bind, reduceCtorEq] at h
      rename_i st1
      have p1 := enqueueClassStep_ne cfg st st1 keys1 keys2 labels i j
        (hmem j (List.mem_cons_self j L)) hq
      have p2 := foldlM_steps_preserve cfg keys1 keys2 labels i L st1 st'
        (fun j' hj' => hmem j' (List.mem_cons_of_mem j hj')) h
      exact ⟨p2.1.trans p1.1, p2.2.1.trans p1.2.1, p2.2.2.1.trans p1.2.2.1,
        p2.2.2.2.1.trans p1.2.2.2.1, p2.2.2.2.2.1.trans p1.2.2.2.2.1,
        p2.2.2.2.2.2.trans p1.2.2.2.2.2⟩

/-- Effect of the per-class step on its own class `i`, given that it
succeeded: no samples means no write and no pointer move; a fitting write
is contiguous at `[ptr, ptr+n)`; an overflowing write splits into a head
at `[ptr, capacity)` and a tail at `[0, n - (capacity - ptr))`; in the two
writing cases the pointer becomes `(ptr + n) % capacity`. -/
lemma enqueueClassStep_self {α : Type} (cfg : Config) (st st' : MoBYState α)
    (keys1 keys2 : List α) (labels : List Nat) (i : Nat)
    (hlen1 : i < st.cls_queue1.length) (hlen2 : i < st.cls_queue2.length)
    (hlenp : i < st.cls_queue_ptr.length)
    (hk1 : keys1.length = labels.length) (hk2 : keys2.length = labels.length)
    (hcap1 : (st.cls_queue1.getD i []).length = cfg.contrast_num_positive)
    (hcap2 : (st.cls_queue2.getD i []).length = cfg.contrast_num_positive)
    (hn : (selectClass keys1 labels i).length ≤ cfg.contrast_num_positive)
    (hptr : st.cls_queue_ptr.getD i 0 < cfg.contrast_num_positive)
    (h : enqueueClassStep cfg st keys1 keys2 labels i = some st') :
    ((selectClass keys1 labels i).length = 0 →
        st'.cls_queue1.getD i [] = st.cls_queue1.getD i []
        ∧ st'.cls_queue2.getD i [] = st.cls_queue2.getD i []
        ∧ st'.cls_queue_ptr.getD i 0 = st.cls_queue_ptr.getD i 0)
    ∧ (0 < (selectClass keys1 labels i).length →
       st.cls_queue_ptr.getD i 0 + (selectClass keys1 labels i).length
          ≤ cfg.contrast_num_positive →
        st'.cls_queue1.getD i []
          = (st.cls_queue1.getD i []).take (st.cls_queue_ptr.getD i 0)
            ++ selectClass keys1 labels i
            ++ (st.cls_queue1.getD i []).drop
                (st.cls_queue_ptr.getD i 0 + (selectClass keys1 labels i).length)
        ∧ st'.cls_queue2.getD i []
          = (st.cls_queue2.getD i []).take (st.cls_queue_ptr.getD i 0)
            ++ selectClass keys2 labels i
            ++ (st.cls_queue2.getD i []).drop
                (st.cls_queue_ptr.getD i 0 + (selectClass keys1 labels i).length)
        ∧ st'.cls_queue_ptr.getD i 0
          = (st.cls_queue_ptr.getD i 0 + (selectClass keys1 labels i).length)
              % cfg.contrast_num_positive)
    ∧ (cfg.contrast_num_positive
          < st.cls_queue_ptr.getD i 0 + (selectClass keys1 labels i).length →
        st'.cls_queue1.getD i []
          = (selectClass keys1 labels i).drop
                (cfg.contrast_num_positive - st.cls_queue_ptr.getD i 0)
            ++ ((st.cls_queue1.getD i []).take (st.cls_queue_ptr.getD i 0)).drop
                ((selectClass keys1 labels i).length
                  - (cfg.contrast_num_positive - st.cls_queue_ptr.getD i 0))
            ++ (selectClass keys1 labels i).take
                (cfg.contrast_num_positive - st.cls_queue_ptr.getD i 0)
        ∧ st'.cls_queue2.getD i []
          = (selectClass keys2 labels i).drop
                (cfg.contrast_num_positive - st.cls_queue_ptr.getD i 0)
            ++ ((st.cls_queue2.getD i []).take (st.cls_queue_ptr.getD i 0)).drop
                ((selectClass keys1 labels i).length
                  - (cfg.contrast_num_positive - st.cls_queue_ptr.getD i 0))
            ++ (selectClass keys2 labels i).take
                (cfg.contrast_num_positive - st.cls_queue_ptr.getD i 0)
        ∧ st'.cls_queue_ptr.getD i 0
          = (st.cls_queue_ptr.getD i 0 + (selectClass keys1 labels i).length)
              % cfg.contrast_num_positive) := by
  have hks2 : (selectClass keys2 labels i).length = (selectClass keys1 labels i).length := by
    rw [selectClass_length_count labels keys2 hk2 i,
      selectClass_length_count labels keys1 hk1 i]
  simp only [enqueueClassStep] at h
  by_cases hn0 : (selectClass keys1 labels i).length = 0
  · rw [if_pos hn0] at h
    cases h
    exact ⟨fun _ => ⟨rfl, rfl, rfl⟩, fun h0 _ => absurd h0 (by omega),
      fun hlt => absurd hlt (by omega)⟩
  · rw [if_neg hn0] at h
    by_cases hfit : st.cls_queue_ptr.getD i 0 + (selectClass keys1 labels i).length
        ≤ cfg.contrast_num_positive
    · rw [if_pos hfit] at h
      have hs1 : sliceAssign (st.cls_queue1.getD i []) (st.cls_queue_ptr.getD i 0)
          (selectClass keys1 labels i)
          = some ((st.cls_queue1.getD i []).take (st.cls_queue_ptr.getD i 0)
              ++ selectClass keys1 labels i
              ++ (st.cls_queue1.getD i []).drop
                  (st.cls_queue_ptr.getD i 0 + (selectClass keys1 labels i).length)) := by
        unfold sliceAssign
        rw [if_pos (by omega)]
      have hs2 : sliceAssign (st.cls_queue2.getD i []) (st.cls_queue_ptr.getD i 0)
          (selectClass keys2 labels i)
          = some ((st.cls_queue2.getD i []).take (st.cls_queue_ptr.getD i 0)
              ++ selectClass keys2 labels i
              ++ (st.cls_queue2.getD i []).drop
                  (st.cls_queue_ptr.getD i 0 + (selectClass keys1 labels i).length)) := by
        unfold sliceAssign
        rw [hks2, if_pos (by omega)]
      rw [hs1, hs2] at h
      simp only [Option.bind_eq_bind, Option.some_bind] at h
      cases h
      refine ⟨fun h0 => absurd h0 hn0, fun _ _ => ?_, fun hlt => absurd hlt (by omega)⟩
      exact ⟨getD_set_self _ _ _ _ hlen1, getD_set_self _ _ _ _ hlen2,
        getD_set_self _ _ _ _ hlenp⟩
    · rw [if_neg hfit] at h
      have htk1 : ((selectClass keys1 labels i).take
          (cfg.contrast_num_positive - st.cls_queue_ptr.getD i 0)).length
          = cfg.contrast_num_positive - st.cls_queue_ptr.getD i 0 := by
        rw [List.length_take]
        omega
      have htk2 : ((selectClass keys2 labels i).take
          (cfg.contrast_num_positive - st.cls_queue_ptr.getD i 0)).length
          = cfg.contrast_num_positive - st.cls_queue_ptr.getD i 0 := by
        rw [List.length_take]
        omega
      have hs1h : sliceAssignFrom (st.cls_queue1.getD i []) (st.cls_queue_ptr.getD i 0)
          ((selectClass keys1 labels i).take
            (cfg.contrast_num_positive - st.cls_queue_ptr.getD i 0))
          = some ((st.cls_queue1.getD i []).take (st.cls_queue_ptr.getD i 0)
              ++ (selectClass keys1 labels i).take
                  (cfg.contrast_num_positive - st.cls_queue_ptr.getD i 0)) := by
        unfold sliceAssignFrom
        rw [htk1, if_pos (by omega)]
      have hs2h : sliceAssignFrom (st.cls_queue2.getD i []) (st.cls_queue_ptr.getD i 0)
          ((selectClass keys2 labels i).take
            (cfg.contrast_num_positive - st.cls_queue_ptr.getD i 0))
          = some ((st.cls_queue2.getD i []).take (st.cls_queue_ptr.getD i 0)
              ++ (selectClass keys2 labels i).take
                  (cfg.contrast_num_positive - st.cls_queue_ptr.getD i 0)) := by
        unfold sliceAssignFrom
        rw [htk2, if_pos (by omega)]
      have hlq1 : ((st.cls_queue1.getD i []).take (st.cls_queue_ptr.getD i 0)
          ++ (selectClass keys1 labels i).take
              (cfg.contrast_num_positive - st.cls_queue_ptr.getD i 0)).length
          = cfg.contrast_num_positive := by
        rw [List.length_append, List.length_take, htk1]
        omega
      have hlq2 : ((st.cls_queue2.getD i []).take (st.cls_queue_ptr.getD i 0)
          ++ (selectClass keys2 labels i).take
              (cfg.contrast_num_positive - st.cls_queue_ptr.getD i 0)).length
          = cfg.contrast_num_positive := by
        rw [List.length_append, List.length_take, htk2]
        omega
      have hs1t : sliceAssign ((st.cls_queue1.getD i []).take (st.cls_queue_ptr.getD i 0)
            ++ (selectClass keys1 labels i).take
                (cfg.contrast_num_positive - st.cls_queue_ptr.getD i 0)) 0
          ((selectClass keys1 labels i).drop
            (cfg.contrast_num_positive - st.cls_queue_ptr.getD i 0))
          = some ((selectClass keys1 labels i).drop
                (cfg.contrast_num_positive - st.cls_queue_ptr.getD i 0)
              ++ (((st.cls_queue1.getD i []).take (st.cls_queue_ptr.getD i 0)
                  ++ (selectClass keys1 labels i).take
                      (cfg.contrast_num_positive - st.cls_queue_ptr.getD i 0)).drop
                  ((selectClass keys1 labels i).length
                    - (cfg.contrast_num_positive - st.cls_queue_ptr.getD i 0)))) := by
        unfold sliceAssign
        rw [List.length_drop, if_pos (by omega)]
        simp [List.length_drop]
      have hs2t : sliceAssign ((st.cls_queue2.getD i []).take (st.cls_queue_ptr.getD i 0)
            ++ (selectClass keys2 labels i).take
                (cfg.contrast_num_positive - st.cls_queue_ptr.getD i 0)) 0
          ((selectClass keys2 labels i).drop
            (cfg.contrast_num_positive - st.cls_queue_ptr.getD i 0))
          = some ((selectClass keys2 labels i).drop
                (cfg.contrast_num_positive - st.cls_queue_ptr.getD i 0)
              ++ (((st.cls_queue2.getD i []).take (st.cls_queue_ptr.getD i 0)
                  ++ (selectClass keys2 labels i).take
                      (cfg.contrast_num_positive - st.cls_queue_ptr.getD i 0)).drop
                  ((selectClass keys1 labels i).length
                    - (cfg.contrast_num_positive - st.cls_queue_ptr.getD i 0)))) := by
        unfold sliceAssign
        rw [List.length_drop, if_pos (by omega)]
        simp [List.length_drop, hks2]
      rw [hs1h] at h
      simp only [Option.bind_eq_bind, Option.some_bind] at h
      rw [hs1t] at h
      simp only [Option.bind_eq_bind, Option.some_bind] at h
      rw [hs2h] at h
      simp only [Option.bind_eq_bind, Option.some_bind] at h
      rw [hs2t] at h
      simp only [Option.bind_eq_bind, Option.some_bind] at h
      cases h
      refine ⟨fun h0 => absurd h0 hn0, fun _ hle => absurd hle hfit, fun _ => ?_⟩
      have hd1 : (((st.cls_queue1.getD i []).take (st.cls_queue_ptr.getD i 0)
            ++ (selectClass keys1 labels i).take
                (cfg.contrast_num_positive - st.cls_queue_ptr.getD i 0)).drop
            ((selectClass keys1 labels i).length
              - (cfg.contrast_num_positive - st.cls_queue_ptr.getD i 0)))
          = ((st.cls_queue1.getD i []).take (st.cls_queue_ptr.getD i 0)).drop
              ((selectClass keys1 labels i).length
                - (cfg.contrast_num_positive - st.cls_queue_ptr.getD i 0))
            ++ (selectClass keys1 labels i).take
                (cfg.contrast_num_positive - st.cls_queue_ptr.getD i 0) :=
        List.drop_append_of_le_length (by rw [List.length_take]; omega)
      have hd2 : (((st.cls_queue2.getD i []).take (st.cls_queue_ptr.getD i 0)
            ++ (selectClass keys2 labels i).take
                (cfg.contrast_num_positive - st.cls_queue_ptr.getD i 0)).drop
            ((selectClass keys1 labels i).length
              - (cfg.contrast_num_positive - st.cls_queue_ptr.getD i 0)))
          = ((st.cls_queue2.getD i []).take (st.cls_queue_ptr.getD i 0)).drop
              ((selectClass keys1 labels i).length
                - (cfg.contrast_num_positive - st.cls_queue_ptr.getD i 0))
            ++ (selectClass keys2 labels i).take
                (cfg.contrast_num_positive - st.cls_queue_ptr.getD i 0) :=
        List.drop_append_of_le_length (by rw [List.length_take]; omega)
      refine ⟨?_, ?_, getD_set_self _ _ _ _ hlenp⟩
      · rw [getD_set_self _ _ _ _ hlen1, hd1, List.append_assoc]
      · rw [getD_set_self _ _ _ _ hlen2, hd2, List.append_assoc]

/-- C1.  For a per-class enqueue call that completes, for each class index
`i` in `[0, num_classes)`: if the batch has no class-`i` samples nothing is
written and the class-`i` pointer stays; otherwise, with `n` the number of
class-`i` samples and `ptr` the class-`i` pointer, if `ptr + n ≤ capacity`
the `n` samples land contiguously at columns `[ptr, ptr+n)` of both view
matrices (other columns unchanged), and if `ptr + n > capacity` the first
`capacity - ptr` samples land at `[ptr, capacity)` and the remaining
`n - (capacity - ptr)` at `[0, n - (capacity - ptr))`; in both writing
cases the class-`i` pointer becomes `(ptr + n) % capacity`.  Precondition
`n ≤ capacity` (single wrap). -/
theorem per_class_enqueue_spec {α : Type} (cfg : Config) (s s' : MoBYState α)
    (keys1 keys2 : List α) (labels : List Nat) (i : Nat)
    (hi : i < cfg.num_classes)
    (hsz1 : s.cls_queue1.length = cfg.num_classes)
    (hsz2 : s.cls_queue2.length = cfg.num_classes)
    (hszp : s.cls_queue_ptr.length = cfg.num_classes)
    (hk1 : keys1.length = labels.length) (hk2 : keys2.length = labels.length)
    (hcap1 : (s.cls_queue1.getD i []).length = cfg.contrast_num_positive)
    (hcap2 : (s.cls_queue2.getD i []).length = cfg.contrast_num_positive)
    (hn : (selectClass keys1 labels i).length ≤ cfg.contrast_num_positive)
    (hptr : s.cls_queue_ptr.getD i 0 < cfg.contrast_num_positive)
    (hcall : dequeue_and_enqueue_label cfg s keys1 keys2 labels = some s') :
    ((selectClass keys1 labels i).length = 0 →
        s'.cls_queue1.getD i [] = s.cls_queue1.getD i []
        ∧ s'.cls_queue2.getD i [] = s.cls_queue2.getD i []
        ∧ s'.cls_queue_ptr.getD i 0 = s.cls_queue_ptr.getD i 0)
    ∧ (0 < (selectClass keys1 labels i).length →
       s.cls_queue_ptr.getD i 0 + (selectClass keys1 labels i).length
          ≤ cfg.contrast_num_positive →
        s'.cls_queue1.getD i []
          = (s.cls_queue1.getD i []).take (s.cls_queue_ptr.getD i 0)
            ++ selectClass keys1 labels i
            ++ (s.cls_queue1.getD i []).drop
                (s.cls_queue_ptr.getD i 0 + (selectClass keys1 labels i).length)
        ∧ s'.cls_queue2.getD i []
          = (s.cls_queue2.getD i []).take (s.cls_queue_ptr.getD i 0)
            ++ selectClass keys2 labels i
            ++ (s.cls_queue2.getD i []).drop
                (s.cls_queue_ptr.getD i 0 + (selectClass keys1 labels i).length)
        ∧ s'.cls_queue_ptr.getD i 0
          = (s.cls_queue_ptr.getD i 0 + (selectClass keys1 labels i).length)
              % cfg.contrast_num_positive)
    ∧ (cfg.contrast_num_positive
          < s.cls_queue_ptr.getD i 0 + (selectClass keys1 labels i).length →
        s'.cls_queue1.getD i []
          = (selectClass keys1 labels i).drop
                (cfg.contrast_num_positive - s.cls_queue_ptr.getD i 0)
            ++ ((s.cls_queue1.getD i []).take (s.cls_queue_ptr.getD i 0)).drop
                ((selectClass keys1 labels i).length
                  - (cfg.contrast_num_positive - s.cls_queue_ptr.getD i 0))
            ++ (selectClass keys1 labels i).take
                (cfg.contrast_num_positive - s.cls_queue_ptr.getD i 0)
        ∧ s'.cls_queue2.getD i []
          = (selectClass keys2 labels i).drop
                (cfg.contrast_num_positive - s.cls_queue_ptr.getD i 0)
            ++ ((s.cls_queue2.getD i []).take (s.cls_queue_ptr.getD i 0)).drop
                ((selectClass keys1 labels i).length
                  - (cfg.contrast_num_positive - s.cls_queue_ptr.getD i 0))
            ++ (selectClass keys2 labels i).take
                (cfg.contrast_num_positive - s.cls_queue_ptr.getD i 0)
        ∧ s'.cls_queue_ptr.getD i 0
          = (s.cls_queue_ptr.getD i 0 + (selectClass keys1 labels i).length)
              % cfg.contrast_num_positive) := by
  unfold dequeue_and_enqueue_label at hcall
  have hsplit : List.range cfg.num_classes
      = (List.range i ++ [i])
        ++ (List.range (cfg.num_classes - (i + 1))).map ((i + 1) + ·) := by
    have h1 : cfg.num_classes = (i + 1) + (cfg.num_classes - (i + 1)) := by omega
    calc List.range cfg.num_classes
        = List.range ((i + 1) + (cfg.num_classes - (i + 1))) := by rw [← h1]
      _ = List.range (i + 1)
          ++ (List.range (cfg.num_classes - (i + 1))).map ((i + 1) + ·) :=
          List.range_add ..
      _ = (List.range i ++ [i])
          ++ (List.range (cfg.num_classes - (i + 1))).map ((i + 1) + ·) := by
          rw [List.range_succ]
  rw [hsplit, List.foldlM_append, List.foldlM_append] at hcall
  simp only [List.foldlM_cons, List.foldlM_nil, Option.bind_eq_bind, Option.pure_def,
    Option.some_bind] at hcall
  cases ha : (List.range i).foldlM
      (fun st j => enqueueClassStep cfg st keys1 keys2 labels j) s <;> rw [ha] at hcall <;>
    simp only [Option.bind_eq_bind, Option.none_bind, Option.some_bind, reduceCtorEq] at hcall
  rename_i st1
  cases hb : enqueueClassStep cfg st1 keys1 keys2 labels i <;> rw [hb] at hcall <;>
    simp only [Option.bind_eq_bind, Option.none_bind, Option.some_bind, reduceCtorEq] at hcall
  rename_i st2
  obtain ⟨e1, e2, e3, l1, l2, l3⟩ := foldlM_steps_preserve cfg keys1 keys2 labels i
    (List.range i) s st1 (fun j hj => by have := List.mem_range.mp hj; omega) ha
  obtain ⟨f1, f2, f3, -, -, -⟩ := foldlM_steps_preserve cfg keys1 keys2 labels i
    ((List.range (cfg.num_classes - (i + 1))).map ((i + 1) + ·)) st2 s'
    (fun j hj => by rcases List.mem_map.mp hj with ⟨t, -, rfl⟩; omega) hcall
  have hstep := enqueueClassStep_self cfg st1 st2 keys1 keys2 labels i
    (by rw [l1, hsz1]; exact hi) (by rw [l2, hsz2]; exact hi) (by rw [l3, hszp]; exact hi)
    hk1 hk2 (by rw [e1]; exact hcap1) (by rw [e2]; exact hcap2) hn
    (by rw [e3]; exact hptr) hb
  rw [e1, e2, e3, ← f1, ← f2, ← f3] at hstep
  exact hstep

/-- Witness for `per_class_enqueue_spec`: two classes, capacity 3, class-0
pointer 2 and two incoming class-0 samples, so the class-0 write wraps. -/
theorem per_class_enqueue_spec_witness :
    (0 < 2
      ∧ ([[1, 2, 3], [4, 5, 6]] : List (List Nat)).length = 2
      ∧ ([[7, 8, 9], [11, 12, 13]] : List (List Nat)).length = 2
      ∧ ([2, 0] : List Nat).length = 2
      ∧ ([10, 20] : List Nat).length = ([0, 0] : List Nat).length
      ∧ ([30, 40] : List Nat).length = ([0, 0] : List Nat).length
      ∧ (selectClass ([10, 20] : List Nat) [0, 0] 0).length ≤ 3
      ∧ dequeue_and_enqueue_label ⟨(0 : ℝ), 0, 4, 3, 2, 1⟩
          (⟨[], [], [], [], [], [], [], 0,
            [[1, 2, 3], [4, 5, 6]], [[7, 8, 9], [11, 12, 13]], [2, 0], 0⟩ : MoBYState Nat)
          [10, 20] [30, 40] [0, 0]
        = some ⟨[], [], [], [], [], [], [], 0,
            [[20, 2, 10], [4, 5, 6]], [[40, 8, 30], [11, 12, 13]], [1, 0], 0⟩)
    ∧ (3 < (⟨[], [], [], [], [], [], [], 0,
          [[1, 2, 3], [4, 5, 6]], [[7, 8, 9], [11, 12, 13]], [2, 0], 0⟩ :
            MoBYState Nat).cls_queue_ptr.getD 0 0
          + (selectClass ([10, 20] : List Nat) [0, 0] 0).length →
        (⟨[], [], [], [], [], [], [], 0,
          [[20, 2, 10], [4, 5, 6]], [[40, 8, 30], [11, 12, 13]], [1, 0], 0⟩ :
            MoBYState Nat).cls_queue1.getD 0 []
          = (selectClass ([10, 20] : List Nat) [0, 0] 0).drop
                (3 - (⟨[], [], [], [], [], [], [], 0,
                  [[1, 2, 3], [4, 5, 6]], [[7, 8, 9], [11, 12, 13]], [2, 0], 0⟩ :
                    MoBYState Nat).cls_queue_ptr.getD 0 0)
            ++ (((⟨[], [], [], [], [], [], [], 0,
                  [[1, 2, 3], [4, 5, 6]], [[7, 8, 9], [11, 12, 13]], [2, 0], 0⟩ :
                    MoBYState Nat).cls_queue1.getD 0 []).take
                  ((⟨[], [], [], [], [], [], [], 0,
                    [[1, 2, 3], [4, 5, 6]], [[7, 8, 9], [11, 12, 13]], [2, 0], 0⟩ :
                      MoBYState Nat).cls_queue_ptr.getD 0 0)).drop
                ((selectClass ([10, 20] : List Nat) [0, 0] 0).length
                  - (3 - (⟨[], [], [], [], [], [], [], 0,
                      [[1, 2, 3], [4, 5, 6]], [[7, 8, 9], [11, 12, 13]], [2, 0], 0⟩ :
                        MoBYState Nat).cls_queue_ptr.getD 0 0))
            ++ (selectClass ([10, 20] : List Nat) [0, 0] 0).take
                (3 - (⟨[], [], [], [], [], [], [], 0,
                  [[1, 2, 3], [4, 5, 6]], [[7, 8, 9], [11, 12, 13]], [2, 0], 0⟩ :
                    MoBYState Nat).cls_queue_ptr.getD 0 0)) :=
  by
  have h := per_class_enqueue_spec ⟨(0 : ℝ), 0, 4, 3, 2, 1⟩
    (⟨[], [], [], [], [], [], [], 0,
      [[1, 2, 3], [4, 5, 6]], [[7, 8, 9], [11, 12, 13]], [2, 0], 0⟩ : MoBYState Nat)
    (⟨[], [], [], [], [], [], [], 0,
      [[20, 2, 10], [4, 5, 6]], [[40, 8, 30], [11, 12, 13]], [1, 0], 0⟩ : MoBYState Nat)
    [10, 20] [30, 40] [0, 0] 0 (by decide) (by decide) (by decide) (by decide)
    (by decide) (by decide) (by decide) (by decide) (by decide) (by decide) rfl
  exact ⟨⟨by decide, by decide, by decide, by decide, by decide, by decide, by decide, rfl⟩,
    fun hlt => (h.2.2 hlt).1⟩

end MoBY
